import Mathlib

/-!
Shallow embedding of the multi-backend connection and query-execution core of
the mcp-sql repository, together with theorems settling the frozen claims.

Conventions used throughout:
* JavaScript `Map` objects are embedded as insertion-ordered association lists
  (`List (String × β)`), matching the iteration-order semantics the source
  relies on (`Array.from(map.keys())[0]` is the first inserted remaining key).
* Timestamps (`Date.now()`) and durations are explicit `ℤ` parameters; rational
  arithmetic (`ℚ`) is used where the source divides JavaScript numbers.
* Driver behaviour at the adapter boundary (the network round trip) is an
  explicit parameter: a call either throws (`Except.error`) or returns a value.
* Row payloads flowing through query results are opaque; definitions are
  polymorphic in the row type `ρ`.
-/

namespace McpSql

/-! ### Insertion-ordered association-list model of a JavaScript Map -/

/-- `Map.get`: the value bound to `k`, if any (first binding wins). -/
def mapGet {β : Type} (m : List (String × β)) (k : String) : Option β :=
  (m.find? (fun p => p.1 = k)).map (fun p => p.2)

/-- `Map.has`. -/
def mapContains {β : Type} (m : List (String × β)) (k : String) : Bool :=
  (mapGet m k).isSome

/-- `Map.set`: updates an existing binding in place (keeping its position),
otherwise appends a new binding at the end, as JavaScript Maps do. -/
def mapSet {β : Type} (m : List (String × β)) (k : String) (v : β) :
    List (String × β) :=
  match m with
  | [] => [(k, v)]
  | (k₀, v₀) :: rest =>
    if k₀ = k then (k₀, v) :: rest else (k₀, v₀) :: mapSet rest k v

/-- `Map.delete`. -/
def mapDelete {β : Type} (m : List (String × β)) (k : String) :
    List (String × β) :=
  m.filter (fun p => ¬ p.1 = k)

/-! ### PerformanceAlert (src/domain/performance/entities, `PerformanceAlert`)

The entity's mutable fields are `_status`, `_acknowledgedAt`, `_resolvedAt`;
`_createdAt` is fixed at construction.  `new Date()` timestamps are explicit
`ℚ` parameters (milliseconds since epoch). -/

inductive AlertStatus
  | active
  | acknowledged
  | resolved
deriving DecidableEq

structure PerformanceAlert where
  status : AlertStatus
  createdAt : ℚ
  acknowledgedAt : Option ℚ
  resolvedAt : Option ℚ
deriving DecidableEq

/-- `PerformanceAlert.acknowledge()`: throws on a resolved alert, otherwise
sets status to acknowledged and stamps the time. -/
def acknowledge (a : PerformanceAlert) (now : ℚ) :
    Except String PerformanceAlert :=
  if a.status = AlertStatus.resolved then
    Except.error "Cannot acknowledge a resolved alert"
  else
    Except.ok { a with status := AlertStatus.acknowledged,
                       acknowledgedAt := some now }

/-- `PerformanceAlert.resolve()`: unconditionally sets status to resolved and
stamps the time. -/
def resolve (a : PerformanceAlert) (now : ℚ) : PerformanceAlert :=
  { a with status := AlertStatus.resolved, resolvedAt := some now }

/-- `PerformanceAlert.shouldEscalate(thresholdMinutes)`: false unless the
alert is active; otherwise compares the age in minutes against the
threshold. -/
def shouldEscalate (a : PerformanceAlert) (now : ℚ)
    (thresholdMinutes : ℚ) : Bool :=
  if a.status ≠ AlertStatus.active then false
  else decide ((now - a.createdAt) / (1000 * 60) > thresholdMinutes)

/-! ### QueryResult (src/types/database.types.ts, `QueryResult`)

Only the fields the verified code reads are carried; row payloads are opaque
values of a type parameter `ρ`. -/

structure QueryResult (ρ : Type) where
  success : Bool
  data : Option (List ρ)
  recordset : Option (List ρ)
  rowsAffected : ℤ
  returnValue : Option ℤ
  error : Option String
  executionTime : ℤ
deriving DecidableEq

/-- Outcome of one adapter-level `executeQuery` call as observed by the
query service: the awaited promise either throws or yields a `QueryResult`. -/
inductive DriverCall (ρ : Type) where
  | throws (msg : String)
  | returns (r : QueryResult ρ)

/-! ### QueryService (services, `QueryService`)

`queryHistory` is the private array; entries are appended with `push` (most
recent last), so `getQueryHistory` reverses before slicing. -/

structure HistoryEntry where
  query : String
  timestamp : ℤ
  executionTime : ℤ
  success : Bool
  error : Option String
deriving DecidableEq

abbrev QueryHistory := List HistoryEntry

/-- `QueryService.executeQuery(query, options)`: delegates to the current
adapter.  If the adapter call returns (whatever its `success` field says) an
entry with `success: true` is pushed and the result returned; if it throws,
an entry with `success: false` and the message is pushed and the error is
re-thrown.  `ts` is the `new Date()` timestamp and `dur` the measured
`Date.now() - startTime`. -/
def svcExecuteQuery {ρ : Type} (hist : QueryHistory) (q : String)
    (outcome : DriverCall ρ) (ts dur : ℤ) :
    QueryHistory × Except String (QueryResult ρ) :=
  match outcome with
  | DriverCall.returns r =>
      (hist ++ [⟨q, ts, dur, true, none⟩], Except.ok r)
  | DriverCall.throws m =>
      (hist ++ [⟨q, ts, dur, false, some m⟩], Except.error m)

/-- A sequence of `executeQuery` calls threaded through the history
(`executeBatch` is exactly such a sequence). Each element carries the query
text, the adapter outcome and the two time values. -/
def runSeq {ρ : Type} (hist : QueryHistory)
    (calls : List (String × DriverCall ρ × ℤ × ℤ)) : QueryHistory :=
  match calls with
  | [] => hist
  | (q, oc, ts, dur) :: rest => runSeq (svcExecuteQuery hist q oc ts dur).1 rest

/-- `QueryService.getQueryHistory(limit?)`: a reversed copy of the history
(most recent first); a truthy `limit` (in JavaScript, nonzero) truncates. -/
def getQueryHistory (hist : QueryHistory) (limit : Option ℕ) : QueryHistory :=
  let history := hist.reverse
  match limit with
  | some l => if l ≠ 0 then history.take l else history
  | none => history

/-- `QueryService.clearHistory()`. -/
def clearHistory (_hist : QueryHistory) : QueryHistory := []

/-- JavaScript `Math.round` on an exact rational. -/
def jsRound (x : ℚ) : ℤ := ⌊x + 1 / 2⌋

/-- `query.substring(0, 100) + (query.length > 100 ? "..." : "")`. -/
def truncateQueryText (s : String) : String :=
  if s.length > 100 then s.take 100 ++ "..." else s

/-- The three fields of a history entry that `getQueryStats` reports for the
slowest/fastest queries. -/
structure QuerySummary where
  query : String
  executionTime : ℤ
  timestamp : ℤ
deriving DecidableEq

/-- Projection used by the slowest/fastest reductions: the reduction reads
only these fields of each entry, and the `history[0] || sentinel` initial
value has exactly this shape. -/
def entrySummary (e : HistoryEntry) : QuerySummary :=
  ⟨e.query, e.executionTime, e.timestamp⟩

structure QueryStats where
  totalQueries : ℕ
  successfulQueries : ℕ
  failedQueries : ℕ
  successRate : ℤ
  averageExecutionTime : ℤ
  slowestQuery : QuerySummary
  fastestQuery : QuerySummary
deriving DecidableEq

/-- `QueryService.getQueryStats()`.  `now` stands for the `new Date()` inside
the `history[0] || {executionTime: 0, query: "", timestamp: new Date()}`
sentinel used when the history is empty. -/
def getQueryStats (hist : QueryHistory) (now : ℤ) : QueryStats :=
  let totalQueries := hist.length
  let successfulQueries := (hist.filter (fun q => q.success)).length
  let failedQueries := totalQueries - successfulQueries
  let executionTimes := hist.map (fun q => q.executionTime)
  let averageExecutionTime : ℤ :=
    if executionTimes.length > 0 then
      jsRound ((executionTimes.foldl (· + ·) 0 : ℤ) / (executionTimes.length : ℚ))
    else 0
  let sentinel : QuerySummary := ⟨"", 0, now⟩
  let start := ((hist.head?).map entrySummary).getD sentinel
  let slowestQuery := (hist.map entrySummary).foldl
    (fun slowest current =>
      if current.executionTime > slowest.executionTime then current
      else slowest) start
  let fastestQuery := (hist.map entrySummary).foldl
    (fun fastest current =>
      if current.executionTime < fastest.executionTime then current
      else fastest) start
  { totalQueries := totalQueries
    successfulQueries := successfulQueries
    failedQueries := failedQueries
    successRate :=
      if totalQueries > 0 then
        jsRound ((successfulQueries : ℚ) / (totalQueries : ℚ) * 100)
      else 0
    averageExecutionTime := averageExecutionTime
    slowestQuery := { slowestQuery with query := truncateQueryText slowestQuery.query }
    fastestQuery := { fastestQuery with query := truncateQueryText fastestQuery.query } }

/-! ### QueryService.executeInTransaction

The transaction runner drives every statement (including the BEGIN / COMMIT /
ROLLBACK controls) through `executeQuery`; the driver behaviour is an
environment mapping each statement text to its outcome.  Alongside the
`Except` outcome we record the trace of statements actually attempted, in
order. -/

def beginTx : String := "BEGIN TRANSACTION"
def commitTx : String := "COMMIT TRANSACTION"
def rollbackTx : String := "ROLLBACK TRANSACTION"

/-- JavaScript template-literal rendering of `result.error` (an absent field
prints as `undefined`). -/
def jsShowOpt (o : Option String) : String :=
  match o with
  | some s => s
  | none => "undefined"

/-- One `this.executeQuery(q)` call as seen by the transaction logic (the
history bookkeeping of `svcExecuteQuery` does not influence control flow). -/
def txExecOne {ρ : Type} (env : String → DriverCall ρ) (q : String) :
    Except String (QueryResult ρ) :=
  match env q with
  | DriverCall.throws m => Except.error m
  | DriverCall.returns r => Except.ok r

/-- The `for (const {query} of queries)` loop: run each statement in order;
a thrown error propagates, and a returned result with `success === false` is
turned into a thrown `Transaction query failed: ...` error.  Returns the
trace of attempted statements together with the loop outcome. -/
def txLoop {ρ : Type} (env : String → DriverCall ρ) :
    List String → List String × Except String (List (QueryResult ρ))
  | [] => ([], Except.ok [])
  | q :: rest =>
    match txExecOne env q with
    | Except.error m => ([q], Except.error m)
    | Except.ok r =>
      if r.success then
        let next := txLoop env rest
        (q :: next.1,
          match next.2 with
          | Except.ok rs => Except.ok (r :: rs)
          | Except.error m => Except.error m)
      else
        ([q], Except.error ("Transaction query failed: " ++ jsShowOpt r.error))

/-- `QueryService.executeInTransaction(queries)`: BEGIN, the statements in
order, then COMMIT; any thrown error (from BEGIN, a statement, or COMMIT) is
caught, a ROLLBACK is attempted (its own outcome ignored), and the original
error is re-thrown.  The first component is the trace of statements issued
through `executeQuery`, in order. -/
def executeInTransaction {ρ : Type} (env : String → DriverCall ρ)
    (queries : List String) :
    List String × Except String (List (QueryResult ρ)) :=
  match txExecOne env beginTx with
  | Except.error m => ([beginTx, rollbackTx], Except.error m)
  | Except.ok _ =>
    match txLoop env queries with
    | (tr, Except.error m) =>
        (beginTx :: tr ++ [rollbackTx], Except.error m)
    | (tr, Except.ok rs) =>
      match txExecOne env commitTx with
      | Except.error m =>
          (beginTx :: tr ++ [commitTx, rollbackTx], Except.error m)
      | Except.ok _ =>
          (beginTx :: tr ++ [commitTx], Except.ok rs)

/-- A statement "fails" when its adapter call throws or returns
`success === false` (the two conditions that abort the loop). -/
def stmtFails {ρ : Type} (env : String → DriverCall ρ) (q : String) : Bool :=
  match env q with
  | DriverCall.throws _ => true
  | DriverCall.returns r => !r.success

/-- Whether the adapter call for `q` throws. -/
def stmtThrows {ρ : Type} (env : String → DriverCall ρ) (q : String) : Bool :=
  match env q with
  | DriverCall.throws _ => true
  | DriverCall.returns _ => false

/-- The error message with which the transaction loop aborts on `q`. -/
def stmtErrMsg {ρ : Type} (env : String → DriverCall ρ) (q : String) : String :=
  match env q with
  | DriverCall.throws m => m
  | DriverCall.returns r => "Transaction query failed: " ++ jsShowOpt r.error

/-- The result returned for a non-throwing statement. -/
def stmtOk? {ρ : Type} (env : String → DriverCall ρ) (q : String) :
    Option (QueryResult ρ) :=
  match env q with
  | DriverCall.throws _ => none
  | DriverCall.returns r => some r

/-- Index of the first failing statement, if any. -/
def firstFail {ρ : Type} (env : String → DriverCall ρ) :
    List String → Option ℕ
  | [] => none
  | q :: rest =>
    if stmtFails env q then some 0
    else (firstFail env rest).map (· + 1)

/-- A successful driver result with no rows (used to instantiate theorems at
concrete inputs). -/
def qrOkUnit : QueryResult Unit := ⟨true, none, none, 0, none, none, 0⟩

/-- A driver result reporting failure in-band (`success: false` with an error
text), as all three adapters produce on a driver-level error. -/
def qrFailedUnit : QueryResult Unit := ⟨false, none, none, 0, none, some "boom", 7⟩

/-- Concrete transaction environment: every statement succeeds except `s2`,
which returns `success: false` with error text `bad`. -/
def txEnvW : String → DriverCall Unit := fun q =>
  if q = "s2" then DriverCall.returns ⟨false, none, none, 0, none, some "bad", 0⟩
  else DriverCall.returns qrOkUnit

/-! ### DatabaseConnectionManager (src/database/connection,
`DatabaseConnectionManager`)

State: the `connections` Map (identifier → adapter) and the nullable
`currentConnection` identifier.  The adapter objects are reduced to the two
fields the manager reads or writes through them (`dbType`, `connected`); the
network outcomes of `adapter.connect()` / `adapter.disconnect()` are explicit
`Except` parameters. -/

structure Adapter where
  dbType : String
  connected : Bool
deriving DecidableEq

structure ManagerSt where
  connections : List (String × Adapter)
  currentConnection : Option String
deriving DecidableEq

/-- The `switch (dbType)` in `createConnection`: construct the matching
adapter variant or throw on an unrecognized type. -/
def makeAdapter (dbType : String) : Except String Adapter :=
  if dbType = "mssql" then Except.ok ⟨"mssql", false⟩
  else if dbType = "mysql" then Except.ok ⟨"mysql", false⟩
  else if dbType = "postgresql" then Except.ok ⟨"postgresql", false⟩
  else Except.error ("Unsupported database type: " ++ dbType)

/-- `createConnection(connectionId, dbConfig, dbType)`: build the adapter,
attempt `adapter.connect()` (outcome `connectRes`; success sets its
`connected` flag), then register it and promote it to current if no current
connection exists.  Any error propagates with the state untouched, since
registration happens only after a successful connect. -/
def createConnection (st : ManagerSt) (connectionId dbType : String)
    (connectRes : Except String Unit) : Except String Adapter × ManagerSt :=
  match makeAdapter dbType with
  | Except.error m => (Except.error m, st)
  | Except.ok adapter =>
    match connectRes with
    | Except.error m => (Except.error m, st)
    | Except.ok _ =>
      let a := { adapter with connected := true }
      let conns := mapSet st.connections connectionId a
      let cur := match st.currentConnection with
        | none => some connectionId
        | some c => some c
      (Except.ok a, ⟨conns, cur⟩)

/-- `getCurrentConnection()`: read-only; throws when no current connection is
set or (defensively) when the current identifier is missing from the Map. -/
def getCurrentConnection (st : ManagerSt) : Except String Adapter :=
  match st.currentConnection with
  | none => Except.error "No active database connection."
  | some c =>
    match mapGet st.connections c with
    | none => Except.error "Current connection not found."
    | some a => Except.ok a

/-- `switchConnection(connectionId)`: throws on an unregistered identifier,
otherwise updates the current pointer. -/
def switchConnection (st : ManagerSt) (connectionId : String) :
    Except String Unit × ManagerSt :=
  if mapContains st.connections connectionId then
    (Except.ok (), { st with currentConnection := some connectionId })
  else
    (Except.error ("Connection not found: " ++ connectionId), st)

/-- `removeConnection(connectionId)`: throws on an unregistered identifier;
otherwise disconnects (outcome `disconnectRes` — a thrown error is re-raised
before anything is deleted), deletes the entry, and if the removed
connection was current reassigns current to the first remaining key or
clears it. -/
def removeConnection (st : ManagerSt) (connectionId : String)
    (disconnectRes : Except String Unit) : Except String Unit × ManagerSt :=
  match mapGet st.connections connectionId with
  | none => (Except.error ("Connection not found: " ++ connectionId), st)
  | some _ =>
    match disconnectRes with
    | Except.error m => (Except.error m, st)
    | Except.ok _ =>
      let conns := mapDelete st.connections connectionId
      let cur :=
        if st.currentConnection = some connectionId then
          match conns.head? with
          | some kv => some kv.1
          | none => none
        else st.currentConnection
      (Except.ok (), ⟨conns, cur⟩)

/-- `disconnectAll()`: best-effort `removeConnection` over a snapshot of the
registered identifiers (individual failures swallowed), then the current
pointer is cleared unconditionally. -/
def disconnectAll (st : ManagerSt) (res : String → Except String Unit) :
    ManagerSt :=
  let ids := st.connections.map (fun p => p.1)
  let st1 := ids.foldl (fun acc id => (removeConnection acc id (res id)).2) st
  { st1 with currentConnection := none }

/-- `autoReconnect(connectionId?)`: resolve the target (argument or current);
missing target or missing registration returns false with nothing changed.
Otherwise disconnect then reconnect the adapter in place: a disconnect throw
leaves everything unchanged; after a successful disconnect the adapter's
`connected` flag follows the reconnect outcome.  The registry keys and the
current pointer are never modified. -/
def autoReconnect (st : ManagerSt) (target : Option String)
    (disconnectRes connectRes : Except String Unit) : Bool × ManagerSt :=
  let tid := match target with
    | some t => some t
    | none => st.currentConnection
  match tid with
  | none => (false, st)
  | some id =>
    match mapGet st.connections id with
    | none => (false, st)
    | some a =>
      match disconnectRes with
      | Except.error _ => (false, st)
      | Except.ok _ =>
        let a1 := { a with connected := false }
        match connectRes with
        | Except.ok _ =>
            (true, { st with
              connections := mapSet st.connections id { a1 with connected := true } })
        | Except.error _ =>
            (false, { st with connections := mapSet st.connections id a1 })

/-- The manager invariant: the current pointer (a single nullable field, so
at most one identifier is ever current) is either unset or a key present in
the connection registry. -/
def currentRegistered (st : ManagerSt) : Prop :=
  ∀ c, st.currentConnection = some c → mapContains st.connections c = true

/-- Concrete manager state: two registered connections, the first current. -/
def mgrStW : ManagerSt :=
  ⟨[("a", ⟨"mssql", true⟩), ("b", ⟨"mysql", true⟩)], some "a"⟩

/-! ### Adapter `executeQuery` variants (src/database/adapters)

Each variant first checks its pool/connection handle (`null` when never
connected or after disconnect) and throws `Not connected to database.`;
otherwise the awaited driver call either throws — caught and converted to a
`QueryResult` with `success=false`, `rowsAffected=0` and the error text — or
yields a driver-specific raw result normalized into a successful
`QueryResult`.  `dt` is the measured `Date.now() - startTime`. -/

/-- Raw result of a successful `mssql` `request.query`: `rowsAffected` is an
array summed by the adapter, `returnValue` is passed through. -/
structure MssqlRaw (ρ : Type) where
  recordset : List ρ
  rowsAffected : List ℤ
  returnValue : Option ℤ

/-- `MSSQLAdapter.executeQuery`. -/
def mssqlExecuteQuery {ρ : Type} (pool : Option Unit)
    (driver : Except String (MssqlRaw ρ)) (dt : ℤ) :
    Except String (QueryResult ρ) :=
  match pool with
  | none => Except.error "Not connected to database."
  | some _ =>
    match driver with
    | Except.ok raw =>
        Except.ok
          { success := true
            data := some raw.recordset
            recordset := some raw.recordset
            rowsAffected := raw.rowsAffected.foldl (· + ·) 0
            returnValue := raw.returnValue
            error := none
            executionTime := dt }
    | Except.error m =>
        Except.ok
          { success := false
            data := none
            recordset := none
            rowsAffected := 0
            returnValue := none
            error := some m
            executionTime := dt }

/-- Raw result of a successful `mysql2` call: either an array of rows
(`SELECT`-like) or a header object; when the header carries an `insertId`
the adapter synthesizes a one-row recordset (`insertIdRow` is that
already-encoded row). -/
inductive MysqlRaw (ρ : Type) where
  | rows (rs : List ρ)
  | header (affectedRows : Option ℤ) (insertIdRow : Option ρ)

/-- `MySQLAdapter.executeQuery`. -/
def mysqlExecuteQuery {ρ : Type} (connection : Option Unit)
    (driver : Except String (MysqlRaw ρ)) (dt : ℤ) :
    Except String (QueryResult ρ) :=
  match connection with
  | none => Except.error "Not connected to database."
  | some _ =>
    match driver with
    | Except.ok (MysqlRaw.rows rs) =>
        Except.ok
          { success := true
            data := some rs
            recordset := some rs
            rowsAffected := rs.length
            returnValue := none
            error := none
            executionTime := dt }
    | Except.ok (MysqlRaw.header affectedRows insertIdRow) =>
        Except.ok
          { success := true
            data := insertIdRow.map (fun r => [r])
            recordset := insertIdRow.map (fun r => [r])
            rowsAffected := affectedRows.getD 0
            returnValue := none
            error := none
            executionTime := dt }
    | Except.error m =>
        Except.ok
          { success := false
            data := none
            recordset := none
            rowsAffected := 0
            returnValue := none
            error := some m
            executionTime := dt }

/-- Raw result of a successful `pg` `pool.query`: rows plus a nullable
`rowCount`. -/
structure PgRaw (ρ : Type) where
  rows : List ρ
  rowCount : Option ℤ

/-- `PostgreSQLAdapter.executeQuery`. -/
def pgExecuteQuery {ρ : Type} (pool : Option Unit)
    (driver : Except String (PgRaw ρ)) (dt : ℤ) :
    Except String (QueryResult ρ) :=
  match pool with
  | none => Except.error "Not connected to database."
  | some _ =>
    match driver with
    | Except.ok raw =>
        Except.ok
          { success := true
            data := some raw.rows
            recordset := some raw.rows
            rowsAffected := raw.rowCount.getD 0
            returnValue := none
            error := none
            executionTime := dt }
    | Except.error m =>
        Except.ok
          { success := false
            data := none
            recordset := none
            rowsAffected := 0
            returnValue := none
            error := some m
            executionTime := dt }

/-! ### SchemaService cache (services, `SchemaService`)

`schemaCache` maps a composite key to `{data, timestamp}`;
`cacheExpiration` defaults to `5 * 60 * 1000` ms.  Cached payloads are
opaque values of a type parameter `δ`. -/

structure CacheEntry (δ : Type) where
  data : δ
  timestamp : ℤ
deriving DecidableEq

structure SchemaCacheSt (δ : Type) where
  entries : List (String × CacheEntry δ)
  cacheExpiration : ℤ
deriving DecidableEq

/-- `SchemaService.isCacheValid(key)`: a missing entry is invalid; an entry
with `now - timestamp > cacheExpiration` is deleted (lazy eviction) and
invalid; anything else is valid.  Returns the flag together with the
possibly-evicted cache state. -/
def isCacheValid {δ : Type} (st : SchemaCacheSt δ) (key : String) (now : ℤ) :
    Bool × SchemaCacheSt δ :=
  match mapGet st.entries key with
  | none => (false, st)
  | some cached =>
    if now - cached.timestamp > st.cacheExpiration then
      (false, { st with entries := mapDelete st.entries key })
    else (true, st)

/-- `SchemaService.updateCache(key, data)`. -/
def updateCache {δ : Type} (st : SchemaCacheSt δ) (key : String) (data : δ)
    (now : ℤ) : SchemaCacheSt δ :=
  { st with entries := mapSet st.entries key ⟨data, now⟩ }

/-- `SchemaService.getTableInfo(tableName)`: on a valid cache hit return the
stored entry's `.data` (the `getD fetch` fallback is the unreachable
`none` arm of the lookup that `isCacheValid` just validated); otherwise
fetch through the current adapter (`fetch` is that adapter result), store
it, and return it.  The boolean records whether an adapter fetch was
triggered. -/
def svcGetTableInfo {δ : Type} (st : SchemaCacheSt δ) (tableName : String)
    (now : ℤ) (fetch : δ) : δ × SchemaCacheSt δ × Bool :=
  let cacheKey := "table_" ++ tableName
  let r := isCacheValid st cacheKey now
  if r.1 then
    (((mapGet r.2.entries cacheKey).map (fun c => c.data)).getD fetch,
      r.2, false)
  else
    (fetch, updateCache r.2 cacheKey fetch now, true)

/-- Concrete cache state: one entry stored at time 0 under key `table_t`,
with the default 5-minute expiration. -/
def cacheStW : SchemaCacheSt String := ⟨[("table_t", ⟨"cached", 0⟩)], 300000⟩

/-! ### MSSQLAdapter.getTableInfo (src/database/adapters, `MSSQLAdapter`)

The method issues six metadata queries (columns, primary keys, foreign
keys, check constraints, indexes, table statistics) and assembles a
`TableInfo` from their recordsets; it never inspects the per-query
`success` flags (a failed query's missing recordset defaults to `[]`
through `?.map ... || []`), and its own catch returns a basic empty
`TableInfo`, so the method never throws.  The database is embedded as the
recordsets each query yields per table name; for a nonexistent table every
recordset is empty. -/

structure MsColumnRow where
  name : String
  dataType : String
  maxLength : Option ℤ
  precision : Option ℤ
  scale : Option ℤ
  isNullable : String
  defaultValue : Option String
  ordinalPosition : ℤ
  isIdentity : ℤ
  columnComment : Option String
deriving DecidableEq

structure MsKeyRow where
  name : String
deriving DecidableEq

structure MsForeignKeyRow where
  name : String
  constraintName : String
deriving DecidableEq

structure MsCheckRow where
  name : String
  definition : String
deriving DecidableEq

structure MsIndexRow where
  indexName : String
  indexType : String
  isUnique : Bool
deriving DecidableEq

structure MsStatsRow where
  rowCount : ℤ
  sizeKB : ℤ
deriving DecidableEq

structure MsDb where
  columnsOf : String → List MsColumnRow
  primaryKeysOf : String → List MsKeyRow
  foreignKeysOf : String → List MsForeignKeyRow
  checkConstraintsOf : String → List MsCheckRow
  indexesOf : String → List MsIndexRow
  statsOf : String → List MsStatsRow

structure ColumnInfo where
  name : String
  dataType : String
  maxLength : Option ℤ
  precision : Option ℤ
  scale : Option ℤ
  isNullable : Bool
  isIdentity : Bool
  isPrimaryKey : Bool
  defaultValue : Option String
  ordinalPosition : ℤ
  comment : Option String
deriving DecidableEq

structure TableInfo where
  name : String
  schema : String
  type : String
  columns : List ColumnInfo
  primaryKeys : List String
  foreignKeys : List MsForeignKeyRow
  indexes : List MsIndexRow
  checkConstraints : List MsCheckRow
  rowCount : ℤ
  sizeKB : ℤ
deriving DecidableEq

/-- `MSSQLAdapter.getTableInfo(tableName)` (connected pool; each of the six
metadata queries answered by `db`). -/
def mssqlGetTableInfo (db : MsDb) (tableName : String) : TableInfo :=
  let columnsResult := db.columnsOf tableName
  let primaryKeysResult := db.primaryKeysOf tableName
  let foreignKeysResult := db.foreignKeysOf tableName
  let checkConstraintsResult := db.checkConstraintsOf tableName
  let indexesResult := db.indexesOf tableName
  let tableStatsResult := db.statsOf tableName
  let primaryKeyNames := primaryKeysResult.map (fun r => r.name)
  { name := tableName
    schema := "dbo"
    type := "table"
    columns := columnsResult.map (fun row =>
      { name := row.name
        dataType := row.dataType
        maxLength := row.maxLength
        precision := row.precision
        scale := row.scale
        isNullable := decide (row.isNullable = "YES")
        isIdentity := decide (row.isIdentity ≠ (0 : ℤ))
        isPrimaryKey := primaryKeyNames.contains row.name
        defaultValue := row.defaultValue
        ordinalPosition := row.ordinalPosition
        comment := row.columnComment })
    primaryKeys := primaryKeyNames
    foreignKeys := foreignKeysResult
    indexes := indexesResult
    checkConstraints := checkConstraintsResult
    rowCount := ((tableStatsResult.head?).map (fun r => r.rowCount)).getD 0
    sizeKB := ((tableStatsResult.head?).map (fun r => r.sizeKB)).getD 0 }

/-- A table name for which every metadata query returns an empty recordset —
the observable shape of a table that does not exist. -/
def tableAbsent (db : MsDb) (t : String) : Prop :=
  db.columnsOf t = [] ∧ db.primaryKeysOf t = [] ∧ db.foreignKeysOf t = []
  ∧ db.checkConstraintsOf t = [] ∧ db.indexesOf t = [] ∧ db.statsOf t = []

/-- The value `getTableInfo` fabricates for a table with six empty
recordsets: the requested name, defaults, and empty structure lists. -/
def fabricatedTableInfo (t : String) : TableInfo :=
  ⟨t, "dbo", "table", [], [], [], [], [], 0, 0⟩

/-- A database with no tables at all: every metadata query is empty. -/
def emptyMsDb : MsDb :=
  ⟨fun _ => [], fun _ => [], fun _ => [], fun _ => [], fun _ => [], fun _ => []⟩

end McpSql

namespace McpSql

/-- C3: from every status, `resolve` succeeds and sets the resolved status and
timestamp; `acknowledge` fails exactly on an already-resolved alert and
otherwise sets the acknowledged status and timestamp; `shouldEscalate` is
false for every non-active alert regardless of age, and true exactly for an
active alert strictly older than the threshold. -/
theorem alert_lifecycle (a : PerformanceAlert) (t now thr : ℚ) :
    ((resolve a t).status = AlertStatus.resolved
      ∧ (resolve a t).resolvedAt = some t)
    ∧ ((acknowledge a t).isOk = false ↔ a.status = AlertStatus.resolved)
    ∧ (a.status ≠ AlertStatus.resolved →
        acknowledge a t =
          Except.ok { a with status := AlertStatus.acknowledged,
                             acknowledgedAt := some t })
    ∧ (shouldEscalate a now thr = true ↔
        (a.status = AlertStatus.active
          ∧ (now - a.createdAt) / (1000 * 60) > thr)) := by
  refine ⟨⟨rfl, rfl⟩, ?_, ?_, ?_⟩
  · unfold acknowledge
    by_cases h : a.status = AlertStatus.resolved <;>
      simp [h, Except.isOk, Except.toBool]
  · intro h
    unfold acknowledge
    simp [h]
  · unfold shouldEscalate
    by_cases h : a.status = AlertStatus.active
    · simp [h]
    · simp [h]

/-- Concrete instantiation of `alert_lifecycle`: an active alert created at
time 0, acknowledged at time 5, escalation queried 31 minutes after
creation with a 30-minute threshold. -/
theorem alert_lifecycle_witness :
    (acknowledge ⟨AlertStatus.active, 0, none, none⟩ 5 =
      Except.ok ⟨AlertStatus.acknowledged, 0, some 5, none⟩)
    ∧ shouldEscalate ⟨AlertStatus.active, 0, none, none⟩ (31 * 60000) 30
        = true := by
  have h := alert_lifecycle ⟨AlertStatus.active, 0, none, none⟩ 5 (31 * 60000) 30
  refine ⟨h.2.2.1 (by decide), h.2.2.2.mpr ⟨rfl, by norm_num⟩⟩

/-- The transaction loop attempts statements strictly in order up to and
including the first failing one; with no failing statement it runs them all
and collects their results in order. -/
theorem txLoop_spec {ρ : Type} (env : String → DriverCall ρ)
    (queries : List String) :
    match firstFail env queries with
    | some k =>
        txLoop env queries =
          (queries.take (k + 1),
            Except.error (stmtErrMsg env (queries.getD k "")))
    | none =>
        txLoop env queries = (queries, Except.ok (queries.filterMap (stmtOk? env))) := by
  induction queries with
  | nil => simp [firstFail, txLoop]
  | cons q rest ih =>
    cases henv : env q with
    | throws m =>
      have hfail : stmtFails env q = true := by simp [stmtFails, henv]
      simp only [firstFail, hfail, if_pos rfl]
      simp [txLoop, txExecOne, henv, stmtErrMsg]
    | returns r =>
      by_cases hs : r.success
      · have hfail : stmtFails env q = false := by simp [stmtFails, henv, hs]
        cases hff : firstFail env rest with
        | some k =>
          rw [hff] at ih
          have h1 : firstFail env (q :: rest) = some (k + 1) := by
            simp [firstFail, hfail, hff]
          rw [h1]
          simp [txLoop, txExecOne, henv, hs, ih, List.take_succ_cons,
            List.getD_cons_succ]
        | none =>
          rw [hff] at ih
          have h1 : firstFail env (q :: rest) = none := by
            simp [firstFail, hfail, hff]
          rw [h1]
          simp [txLoop, txExecOne, henv, hs, ih, List.filterMap_cons,
            stmtOk?]
      · have hfail : stmtFails env q = true := by
          simp [stmtFails, henv]
          exact Bool.not_eq_true r.success ▸ (by simpa using hs)
        simp only [firstFail, hfail, if_pos rfl]
        simp [txLoop, txExecOne, henv, hs, stmtErrMsg]

/-- C1: provided BEGIN and COMMIT themselves do not throw, a transaction
issues BEGIN first and then attempts the statements strictly in order.  If
some statement throws or returns `success=false`, no later statement is
attempted, a ROLLBACK is issued, and the original error is re-raised
whatever the rollback's own outcome; if every statement succeeds, a COMMIT
is issued and the per-statement results are returned in order. -/
theorem executeInTransaction_spec {ρ : Type} (env : String → DriverCall ρ)
    (queries : List String)
    (hB : stmtThrows env beginTx = false)
    (hC : stmtThrows env commitTx = false) :
    match firstFail env queries with
    | some k =>
        executeInTransaction env queries =
          (beginTx :: (queries.take (k + 1) ++ [rollbackTx]),
            Except.error (stmtErrMsg env (queries.getD k "")))
    | none =>
        executeInTransaction env queries =
          (beginTx :: (queries ++ [commitTx]),
            Except.ok (queries.filterMap (stmtOk? env))) := by
  obtain ⟨rB, hrB⟩ : ∃ r, env beginTx = DriverCall.returns r := by
    cases h : env beginTx with
    | throws m => simp [stmtThrows, h] at hB
    | returns r => exact ⟨r, rfl⟩
  obtain ⟨rC, hrC⟩ : ∃ r, env commitTx = DriverCall.returns r := by
    cases h : env commitTx with
    | throws m => simp [stmtThrows, h] at hC
    | returns r => exact ⟨r, rfl⟩
  have hloop := txLoop_spec env queries
  cases hff : firstFail env queries with
  | some k =>
    rw [hff] at hloop
    simp [executeInTransaction, txExecOne, hrB, hloop]
  | none =>
    rw [hff] at hloop
    simp [executeInTransaction, txExecOne, hrB, hrC, hloop]

/-- Concrete instantiation of `executeInTransaction_spec`: in
`[s1, s2, s3]` with `s2` failing in-band, exactly BEGIN, `s1`, `s2`,
ROLLBACK are issued (never `s3`) and the error derived from `s2` is
re-raised. -/
theorem executeInTransaction_witness :
    executeInTransaction txEnvW ["s1", "s2", "s3"] =
      ([beginTx, "s1", "s2", rollbackTx],
        Except.error "Transaction query failed: bad") := by
  have h := executeInTransaction_spec txEnvW ["s1", "s2", "s3"]
    (by decide) (by decide)
  have hff : firstFail txEnvW ["s1", "s2", "s3"] = some 1 := by decide
  rw [hff] at h
  simpa [txEnvW, stmtErrMsg, jsShowOpt, beginTx, rollbackTx] using h

/-- Each `executeQuery` call appends exactly one history entry, so a sequence
of calls grows the history by its length. -/
theorem runSeq_length {ρ : Type} (calls : List (String × DriverCall ρ × ℤ × ℤ))
    (hist : QueryHistory) :
    (runSeq hist calls).length = hist.length + calls.length := by
  induction calls generalizing hist with
  | nil => simp [runSeq]
  | cons c rest ih =>
    obtain ⟨q, oc, ts, dur⟩ := c
    cases oc <;> simp [runSeq, svcExecuteQuery, ih] <;> omega

/-- C6 counterexample: the query history is not bounded by any fixed cap —
the source `queryHistory.push` has no trimming, so `n` executions starting
from an empty history always leave `n` stored entries. -/
theorem queryHistory_unbounded :
    ¬ ∃ cap : ℕ, ∀ calls : List (String × DriverCall Unit × ℤ × ℤ),
        (runSeq [] calls).length ≤ cap := by
  rintro ⟨cap, h⟩
  have hc := h (List.replicate (cap + 1) ("q", DriverCall.returns qrOkUnit, 0, 0))
  rw [runSeq_length] at hc
  simp at hc

/-- C6 as amended: the history is unbounded — after any sequence of
executions it holds exactly one entry per execution performed (on top of
whatever was already stored) — and `getQueryHistory` returns the entries
most-recent-first (the reverse of the append-ordered store), truncated only
by a nonzero limit. -/
theorem queryHistory_spec {ρ : Type} (hist : QueryHistory)
    (calls : List (String × DriverCall ρ × ℤ × ℤ)) (limit : ℕ) :
    (runSeq hist calls).length = hist.length + calls.length
    ∧ getQueryHistory hist none = hist.reverse
    ∧ getQueryHistory hist (some limit) =
        (if limit ≠ 0 then hist.reverse.take limit else hist.reverse) := by
  refine ⟨runSeq_length calls hist, rfl, ?_⟩
  simp [getQueryHistory]

/-- C7 counterexample: when the adapter reports a driver-level failure
in-band (a returned `QueryResult` with `success=false`, as every adapter
variant produces instead of throwing), `executeQuery` records the entry with
`success=true` and no error text, and returns the failed result instead of
re-raising. -/
theorem svcExecuteQuery_inband_failure :
    (svcExecuteQuery [] "SELECT 1" (DriverCall.returns qrFailedUnit) 0 7).1 =
        [⟨"SELECT 1", 0, 7, true, none⟩]
    ∧ qrFailedUnit.success = false
    ∧ (svcExecuteQuery [] "SELECT 1" (DriverCall.returns qrFailedUnit) 0 7).2 =
        Except.ok qrFailedUnit := by
  exact ⟨rfl, rfl, rfl⟩

/-- C7 as amended: every `executeQuery` call appends exactly one history
entry; the entry's success flag records whether the adapter call threw — a
thrown failure is recorded with `success=false` and the error text and then
re-raised, while an adapter result returned without throwing (even one with
`success=false`) is recorded with `success=true` and returned to the caller
without re-raising. -/
theorem svcExecuteQuery_spec {ρ : Type} (hist : QueryHistory) (q : String)
    (outcome : DriverCall ρ) (ts dur : ℤ) :
    (svcExecuteQuery hist q outcome ts dur).1.length = hist.length + 1
    ∧ (match outcome with
       | DriverCall.throws m =>
          svcExecuteQuery hist q outcome ts dur =
            (hist ++ [⟨q, ts, dur, false, some m⟩], Except.error m)
       | DriverCall.returns r =>
          svcExecuteQuery hist q outcome ts dur =
            (hist ++ [⟨q, ts, dur, true, none⟩], Except.ok r)) := by
  cases outcome <;> exact ⟨by simp [svcExecuteQuery], rfl⟩

/-- C10: `getQueryStats` on an empty history is well-defined: all counters
and both guarded divisions yield 0, and the slowest/fastest summaries are
the sentinel with empty query text and execution time 0. -/
theorem getQueryStats_empty (now : ℤ) :
    getQueryStats [] now =
      { totalQueries := 0, successfulQueries := 0, failedQueries := 0,
        successRate := 0, averageExecutionTime := 0,
        slowestQuery := ⟨"", 0, now⟩, fastestQuery := ⟨"", 0, now⟩ } := by
  rfl

/-! Association-list lemmas backing the connection-manager invariants. -/

theorem mapGet_mapSet_self {β : Type} (m : List (String × β)) (k : String)
    (v : β) : mapGet (mapSet m k v) k = some v := by
  induction m with
  | nil => simp [mapSet, mapGet, List.find?]
  | cons p rest ih =>
    obtain ⟨k₀, v₀⟩ := p
    by_cases h : k₀ = k
    · subst h
      simp [mapSet, mapGet, List.find?]
    · simpa [mapSet, mapGet, List.find?, h] using ih

theorem mapGet_mapSet_ne {β : Type} (m : List (String × β)) (k c : String)
    (v : β) (hne : c ≠ k) : mapGet (mapSet m k v) c = mapGet m c := by
  have hkc : ¬ (k = c) := fun h => hne h.symm
  induction m with
  | nil => simp [mapSet, mapGet, List.find?, hkc]
  | cons p rest ih =>
    obtain ⟨k₀, v₀⟩ := p
    by_cases h : k₀ = k
    · subst h
      simp [mapSet, mapGet, List.find?, hkc]
    · by_cases hc : k₀ = c
      · subst hc
        simp [mapSet, mapGet, List.find?, h]
      · simp [mapSet, mapGet, List.find?, h, hc] at ih ⊢
        exact ih

theorem mapContains_mapSet_of {β : Type} (m : List (String × β))
    (k c : String) (v : β) (h : mapContains m c = true) :
    mapContains (mapSet m k v) c = true := by
  by_cases hck : c = k
  · subst hck
    simp [mapContains, mapGet_mapSet_self]
  · simpa [mapContains, mapGet_mapSet_ne m k c v hck] using h

theorem mapGet_mapDelete_ne {β : Type} (m : List (String × β)) (k c : String)
    (hne : c ≠ k) : mapGet (mapDelete m k) c = mapGet m c := by
  have hkc : ¬ (k = c) := fun h => hne h.symm
  induction m with
  | nil => simp [mapDelete, mapGet]
  | cons p rest ih =>
    obtain ⟨k₀, v₀⟩ := p
    by_cases h : k₀ = k
    · subst h
      simp [mapDelete, mapGet, List.find?, hkc] at ih ⊢
      exact ih
    · by_cases hc : k₀ = c
      · subst hc
        simp [mapDelete, mapGet, List.find?, h]
      · simp [mapDelete, mapGet, List.find?, h, hc] at ih ⊢
        exact ih

theorem mapContains_of_mem {β : Type} (m : List (String × β))
    (p : String × β) (hp : p ∈ m) : mapContains m p.1 = true := by
  have : (m.find? (fun q => q.1 = p.1)).isSome := by
    rw [List.find?_isSome]
    exact ⟨p, hp, by simp⟩
  simpa [mapContains, mapGet] using this

theorem head?_mapDelete_key {β : Type} (m : List (String × β)) (k : String)
    (kv : String × β) (h : (mapDelete m k).head? = some kv) :
    kv ∈ mapDelete m k ∧ kv.1 ≠ k := by
  have hmem : kv ∈ mapDelete m k := by
    cases hl : mapDelete m k with
    | nil => rw [hl] at h; cases h
    | cons a t =>
      rw [hl] at h
      simp at h
      subst h
      exact hl ▸ List.mem_cons_self a t
  refine ⟨hmem, ?_⟩
  have h2 : kv ∈ m ∧ ¬ kv.1 = k := by simpa [mapDelete] using hmem
  exact h2.2

theorem createConnection_inv (st : ManagerSt) (hInv : currentRegistered st)
    (connectionId dbType : String) (connectRes : Except String Unit) :
    currentRegistered (createConnection st connectionId dbType connectRes).2 := by
  cases hma : makeAdapter dbType with
  | error m => simpa [createConnection, hma] using hInv
  | ok adapter =>
    cases connectRes with
    | error m => simpa [createConnection, hma] using hInv
    | ok u =>
      intro c hc
      simp only [createConnection, hma] at hc ⊢
      cases hcur : st.currentConnection with
      | none =>
        rw [hcur] at hc
        simp only [Option.some.injEq] at hc
        subst hc
        simp [mapContains, mapGet_mapSet_self]
      | some c₀ =>
        rw [hcur] at hc
        simp only [Option.some.injEq] at hc
        subst hc
        exact mapContains_mapSet_of _ _ _ _ (hInv _ hcur)

theorem switchConnection_inv (st : ManagerSt) (hInv : currentRegistered st)
    (connectionId : String) :
    currentRegistered (switchConnection st connectionId).2 := by
  by_cases h : mapContains st.connections connectionId = true
  · intro c hc
    simp only [switchConnection, h, if_true] at hc ⊢
    simp only [Option.some.injEq] at hc
    subst hc
    exact h
  · simpa [switchConnection, h] using hInv

theorem removeConnection_inv (st : ManagerSt) (hInv : currentRegistered st)
    (connectionId : String) (disconnectRes : Except String Unit) :
    currentRegistered (removeConnection st connectionId disconnectRes).2 := by
  cases hg : mapGet st.connections connectionId with
  | none => simpa [removeConnection, hg] using hInv
  | some a =>
    cases disconnectRes with
    | error m => simpa [removeConnection, hg] using hInv
    | ok u =>
      intro c hc
      simp only [removeConnection, hg] at hc ⊢
      by_cases hcur : st.currentConnection = some connectionId
      · rw [if_pos hcur] at hc
        cases hh : (mapDelete st.connections connectionId).head? with
        | none => rw [hh] at hc; cases hc
        | some kv =>
          rw [hh] at hc
          simp only [Option.some.injEq] at hc
          subst hc
          obtain ⟨hmem, _⟩ := head?_mapDelete_key st.connections connectionId kv hh
          exact mapContains_of_mem _ kv hmem
      · rw [if_neg hcur] at hc
        have hcne : c ≠ connectionId := by
          intro he
          exact hcur (he ▸ hc)
        have := hInv c hc
        simpa [mapContains,
          mapGet_mapDelete_ne st.connections connectionId c hcne] using this

theorem disconnectAll_inv (st : ManagerSt)
    (res : String → Except String Unit) :
    currentRegistered (disconnectAll st res) := by
  intro c hc
  simp [disconnectAll] at hc

theorem autoReconnect_inv (st : ManagerSt) (hInv : currentRegistered st)
    (target : Option String) (disconnectRes connectRes : Except String Unit) :
    currentRegistered (autoReconnect st target disconnectRes connectRes).2 := by
  have hset : ∀ (a : Adapter) (id : String),
      currentRegistered
        { st with connections := mapSet st.connections id a } := by
    intro a id c hc
    exact mapContains_mapSet_of _ _ _ _ (hInv c hc)
  cases target with
  | none =>
    cases hcur : st.currentConnection with
    | none => simpa [autoReconnect, hcur] using hInv
    | some id =>
      cases hg : mapGet st.connections id with
      | none => simpa [autoReconnect, hcur, hg] using hInv
      | some a =>
        cases disconnectRes with
        | error m => simpa [autoReconnect, hcur, hg] using hInv
        | ok u =>
          cases connectRes with
          | ok v => simpa [autoReconnect, hcur, hg] using hset _ id
          | error m => simpa [autoReconnect, hcur, hg] using hset _ id
  | some t =>
    cases hg : mapGet st.connections t with
    | none => simpa [autoReconnect, hg] using hInv
    | some a =>
      cases disconnectRes with
      | error m => simpa [autoReconnect, hg] using hInv
      | ok u =>
        cases connectRes with
        | ok v => simpa [autoReconnect, hg] using hset _ t
        | error m => simpa [autoReconnect, hg] using hset _ t

theorem removeConnection_current_reassign (st : ManagerSt)
    (connectionId : String) (disconnectRes : Except String Unit)
    (hok : (removeConnection st connectionId disconnectRes).1.isOk = true) :
    (removeConnection st connectionId disconnectRes).2.currentConnection
      ≠ some connectionId
    ∧ (st.currentConnection = some connectionId →
        ((removeConnection st connectionId disconnectRes).2.currentConnection
            = none
          ↔ mapDelete st.connections connectionId = [])) := by
  cases hg : mapGet st.connections connectionId with
  | none => simp [removeConnection, hg, Except.isOk, Except.toBool] at hok
  | some a =>
    cases disconnectRes with
    | error m => simp [removeConnection, hg, Except.isOk, Except.toBool] at hok
    | ok u =>
      by_cases hcur : st.currentConnection = some connectionId
      · cases hh : (mapDelete st.connections connectionId).head? with
        | none =>
          refine ⟨?_, fun _ => ?_⟩
          · simp [removeConnection, hg, hcur, hh]
          · simp [removeConnection, hg, hcur, hh,
              List.head?_eq_none_iff.mp hh]
        | some kv =>
          obtain ⟨_, hne⟩ := head?_mapDelete_key st.connections connectionId kv hh
          refine ⟨?_, fun _ => ?_⟩
          · simp only [removeConnection, hg, hcur, if_pos rfl, hh]
            simp [hne]
          · have : mapDelete st.connections connectionId ≠ [] := by
              intro hnil
              rw [hnil] at hh
              cases hh
            simp [removeConnection, hg, hcur, hh, this]
      · refine ⟨?_, fun h => absurd h hcur⟩
        simp only [removeConnection, hg, if_neg hcur]
        simpa using hcur

theorem createConnection_fail_unchanged (st : ManagerSt)
    (connectionId dbType : String) (connectRes : Except String Unit)
    (hfail : (createConnection st connectionId dbType connectRes).1.isOk
      = false) :
    (createConnection st connectionId dbType connectRes).2 = st := by
  cases hma : makeAdapter dbType with
  | error m => simp [createConnection, hma]
  | ok adapter =>
    cases connectRes with
    | error m => simp [createConnection, hma]
    | ok u => simp [createConnection, hma, Except.isOk, Except.toBool] at hfail

/-- C2: every manager operation preserves the invariant that the current
pointer — a single nullable field, so at most one identifier is ever
current — is either unset or a key present in the registry; moreover a
successful `removeConnection` never leaves the current pointer at the
removed identifier and, when the removed connection was current, clears the
pointer exactly when no connection remains (otherwise reassigning it to a
remaining registered identifier, by invariant preservation); and a failed
`createConnection` (unrecognized backend type or connect failure) registers
nothing, leaving the state — current pointer included — unchanged.
`getCurrentConnection` is read-only by construction. -/
theorem manager_invariant (st : ManagerSt) (hInv : currentRegistered st)
    (connectionId dbType : String)
    (connectRes disconnectRes : Except String Unit)
    (res : String → Except String Unit) (target : Option String) :
    currentRegistered (createConnection st connectionId dbType connectRes).2
    ∧ currentRegistered (switchConnection st connectionId).2
    ∧ currentRegistered (removeConnection st connectionId disconnectRes).2
    ∧ currentRegistered (disconnectAll st res)
    ∧ currentRegistered (autoReconnect st target disconnectRes connectRes).2
    ∧ ((removeConnection st connectionId disconnectRes).1.isOk = true →
        (removeConnection st connectionId disconnectRes).2.currentConnection
          ≠ some connectionId
        ∧ (st.currentConnection = some connectionId →
            ((removeConnection st connectionId
                disconnectRes).2.currentConnection = none
              ↔ mapDelete st.connections connectionId = [])))
    ∧ ((createConnection st connectionId dbType connectRes).1.isOk = false →
        (createConnection st connectionId dbType connectRes).2 = st) :=
  ⟨createConnection_inv st hInv connectionId dbType connectRes,
    switchConnection_inv st hInv connectionId,
    removeConnection_inv st hInv connectionId disconnectRes,
    disconnectAll_inv st res,
    autoReconnect_inv st hInv target disconnectRes connectRes,
    removeConnection_current_reassign st connectionId disconnectRes,
    createConnection_fail_unchanged st connectionId dbType connectRes⟩

/-- Concrete instantiation of `manager_invariant`: removing the current
connection `a` from a two-connection registry leaves the pointer away from
`a`, and a `createConnection` with the unrecognized backend type `sqlite`
leaves the state unchanged. -/
theorem manager_invariant_witness :
    (removeConnection mgrStW "a" (Except.ok ())).2.currentConnection
      ≠ some "a"
    ∧ (createConnection mgrStW "a" "sqlite" (Except.ok ())).2 = mgrStW := by
  have h := manager_invariant mgrStW
    (by
      intro c hc
      have hc1 : "a" = c := by
        simpa [mgrStW] using hc
      subst hc1
      decide)
    "a" "sqlite" (Except.ok ()) (Except.ok ()) (fun j => Except.ok ()) none
  exact ⟨(h.2.2.2.2.2.1 (by decide)).1, h.2.2.2.2.2.2 (by decide)⟩

/-- C9: when `adapter.disconnect()` throws inside `removeConnection` on a
registered identifier, the error is re-raised and the manager state is
returned unchanged: nothing is deregistered and the current pointer is
untouched. -/
theorem removeConnection_atomic_on_error (st : ManagerSt)
    (connectionId m : String)
    (h : mapContains st.connections connectionId = true) :
    removeConnection st connectionId (Except.error m) = (Except.error m, st) := by
  obtain ⟨a, ha⟩ : ∃ a, mapGet st.connections connectionId = some a := by
    cases hg : mapGet st.connections connectionId with
    | none => simp [mapContains, hg] at h
    | some a => exact ⟨a, rfl⟩
  simp [removeConnection, ha]

/-- Concrete instantiation of `removeConnection_atomic_on_error`: a failing
disconnect of the current connection `a` re-raises and leaves both
registrations and the current pointer exactly as they were. -/
theorem removeConnection_atomic_witness :
    removeConnection mgrStW "a" (Except.error "close failed") =
      (Except.error "close failed", mgrStW) :=
  removeConnection_atomic_on_error mgrStW "a" "close failed" (by decide)

/-- C4: for each adapter variant, `executeQuery` throws exactly when the
adapter is not connected (no pool/connection handle): with no handle it
throws `Not connected to database.`; with a handle it never throws, and a
driver-level failure is converted into a returned `QueryResult` with
`success=false`, `rowsAffected=0`, and the error text. -/
theorem adapter_executeQuery_failure_contract {ρ : Type} (dt : ℤ) (m : String)
    (dms : Except String (MssqlRaw ρ)) (dmy : Except String (MysqlRaw ρ))
    (dpg : Except String (PgRaw ρ)) :
    (mssqlExecuteQuery none dms dt = Except.error "Not connected to database."
      ∧ mysqlExecuteQuery none dmy dt
          = Except.error "Not connected to database."
      ∧ pgExecuteQuery none dpg dt
          = Except.error "Not connected to database.")
    ∧ ((mssqlExecuteQuery (some ()) dms dt).isOk = true
      ∧ (mysqlExecuteQuery (some ()) dmy dt).isOk = true
      ∧ (pgExecuteQuery (some ()) dpg dt).isOk = true)
    ∧ (@mssqlExecuteQuery ρ (some ()) (Except.error m) dt =
        Except.ok ⟨false, none, none, 0, none, some m, dt⟩
      ∧ @mysqlExecuteQuery ρ (some ()) (Except.error m) dt =
        Except.ok ⟨false, none, none, 0, none, some m, dt⟩
      ∧ @pgExecuteQuery ρ (some ()) (Except.error m) dt =
        Except.ok ⟨false, none, none, 0, none, some m, dt⟩) := by
  refine ⟨⟨rfl, rfl, rfl⟩, ⟨?_, ?_, ?_⟩, rfl, rfl, rfl⟩
  · cases dms <;> rfl
  · rcases dmy with _ | r
    · rfl
    · cases r <;> rfl
  · cases dpg <;> rfl

/-- C5 counterexample: at exactly the TTL boundary (`now - storedAt = ttl`,
here 300000 ms) the stored entry is still returned and no adapter fetch is
triggered, although `now - storedAt < ttl` fails — the code's validity
condition is `now - storedAt ≤ ttl`, not `< ttl`. -/
theorem schemaCache_boundary_returns_cached :
    (svcGetTableInfo cacheStW "t" 300000 "fresh").1 = "cached"
    ∧ (svcGetTableInfo cacheStW "t" 300000 "fresh").2.2 = false
    ∧ ¬ ((300000 : ℤ) - 0 < 300000) := by
  refine ⟨rfl, rfl, by norm_num⟩

/-- C5 as amended: a lookup returns a cached entry (no adapter fetch) iff
the entry exists and `now - storedAt ≤ ttl`; a lookup that finds an entry
strictly past the TTL deletes it (lazy eviction), triggers a fresh adapter
fetch, and re-caches the fresh value, so an entry strictly older than the
TTL is never returned to the caller. -/
theorem schemaCache_spec {δ : Type} (st : SchemaCacheSt δ) (tableName : String)
    (now : ℤ) (fetch : δ) :
    ((svcGetTableInfo st tableName now fetch).2.2 = false ↔
      ∃ c, mapGet st.entries ("table_" ++ tableName) = some c
        ∧ now - c.timestamp ≤ st.cacheExpiration)
    ∧ (∀ c, mapGet st.entries ("table_" ++ tableName) = some c →
        now - c.timestamp ≤ st.cacheExpiration →
        svcGetTableInfo st tableName now fetch = (c.data, st, false))
    ∧ (∀ c, mapGet st.entries ("table_" ++ tableName) = some c →
        now - c.timestamp > st.cacheExpiration →
        (svcGetTableInfo st tableName now fetch).1 = fetch
        ∧ (svcGetTableInfo st tableName now fetch).2.2 = true
        ∧ mapGet (svcGetTableInfo st tableName now fetch).2.1.entries
            ("table_" ++ tableName) = some ⟨fetch, now⟩)
    ∧ (mapGet st.entries ("table_" ++ tableName) = none →
        (svcGetTableInfo st tableName now fetch).1 = fetch
        ∧ (svcGetTableInfo st tableName now fetch).2.2 = true) := by
  cases hg : mapGet st.entries ("table_" ++ tableName) with
  | none =>
    refine ⟨?_, ?_, ?_, fun _ => ⟨?_, ?_⟩⟩ <;>
      simp [svcGetTableInfo, isCacheValid, hg, updateCache]
  | some c =>
    by_cases hexp : now - c.timestamp > st.cacheExpiration
    · refine ⟨?_, ?_, ?_, ?_⟩
      · constructor
        · intro hfalse
          have hne : (svcGetTableInfo st tableName now fetch).2.2 = true := by
            simp [svcGetTableInfo, isCacheValid, hg, hexp, updateCache]
          rw [hne] at hfalse
          cases hfalse
        · rintro ⟨c', hc', hle⟩
          cases hc'
          omega
      · intro c' hc' hle
        cases hc'
        omega
      · intro c' hc' hgt
        cases hc'
        refine ⟨?_, ?_, ?_⟩ <;>
          simp [svcGetTableInfo, isCacheValid, hg, hexp, updateCache,
            mapGet_mapSet_self]
      · intro hnone
        cases hnone
    · have hle : now - c.timestamp ≤ st.cacheExpiration := by omega
      refine ⟨?_, ?_, ?_, ?_⟩
      · constructor
        · intro hfalse2
          exact ⟨c, rfl, hle⟩
        · intro hex
          simp [svcGetTableInfo, isCacheValid, hg, hexp]
      · intro c' hc' hle2
        cases hc'
        simp [svcGetTableInfo, isCacheValid, hg, hexp]
      · intro c' hc' hgt
        cases hc'
        omega
      · intro hnone
        cases hnone

/-- Concrete instantiation of `schemaCache_spec`: with the entry stored at
time 0 and a 5-minute TTL, a lookup at 299999 ms is served from the cache
with the state untouched, while a lookup at 300001 ms returns the freshly
fetched value. -/
theorem schemaCache_spec_witness :
    svcGetTableInfo cacheStW "t" 299999 "fresh" = ("cached", cacheStW, false)
    ∧ (svcGetTableInfo cacheStW "t" 300001 "fresh").1 = "fresh" := by
  have h1 := schemaCache_spec cacheStW "t" 299999 "fresh"
  have h2 := schemaCache_spec cacheStW "t" 300001 "fresh"
  exact ⟨h1.2.1 ⟨"cached", 0⟩ rfl (by norm_num [cacheStW]),
    (h2.2.2.1 ⟨"cached", 0⟩ rfl (by norm_num [cacheStW])).1⟩

/-- C8 counterexample: requesting table details for a table absent from a
database with no tables yields a fabricated success value — the requested
name with empty columns/keys/indexes and zero row count — from the adapter,
and the schema service hands that value back as a normal result; no
SchemaValidationError (nor any error) is surfaced, the embedded operation
being total exactly because the source catches every failure and returns a
basic `TableInfo`. -/
theorem getTableInfo_fabricates_empty :
    mssqlGetTableInfo emptyMsDb "no_such_table" =
      ⟨"no_such_table", "dbo", "table", [], [], [], [], [], 0, 0⟩
    ∧ (svcGetTableInfo (⟨[], 300000⟩ : SchemaCacheSt TableInfo) "no_such_table"
        0 (mssqlGetTableInfo emptyMsDb "no_such_table")).1 =
      ⟨"no_such_table", "dbo", "table", [], [], [], [], [], 0, 0⟩ := by
  exact ⟨rfl, rfl⟩

/-- C8 as amended: for any table whose six metadata queries all come back
empty (the observable shape of a nonexistent table), `getTableInfo` returns
the fabricated empty `TableInfo` carrying the requested name — no
SchemaValidationError and no failure of any kind — and the schema service's
cache-miss path returns that fabricated value as a success. -/
theorem getTableInfo_absent_spec (db : MsDb) (t : String)
    (h : tableAbsent db t) :
    mssqlGetTableInfo db t = fabricatedTableInfo t
    ∧ (∀ (st : SchemaCacheSt TableInfo) (now : ℤ),
        mapGet st.entries ("table_" ++ t) = none →
        (svcGetTableInfo st t now (mssqlGetTableInfo db t)).1 =
          fabricatedTableInfo t) := by
  obtain ⟨h1, h2, h3, h4, h5, h6⟩ := h
  have hmain : mssqlGetTableInfo db t = fabricatedTableInfo t := by
    simp [mssqlGetTableInfo, fabricatedTableInfo, h1, h2, h3, h4, h5, h6]
  refine ⟨hmain, fun st now hnone => ?_⟩
  simp [svcGetTableInfo, isCacheValid, hnone, hmain]

/-- Concrete instantiation of `getTableInfo_absent_spec` on the empty
database and the table name `missing`. -/
theorem getTableInfo_absent_witness :
    mssqlGetTableInfo emptyMsDb "missing" = fabricatedTableInfo "missing" :=
  (getTableInfo_absent_spec emptyMsDb "missing"
    ⟨rfl, rfl, rfl, rfl, rfl, rfl⟩).1

end McpSql
